import Mathlib

/-!
Shallow embedding of `orderer/kafka/broadcast.go` (the kafka broadcaster of
Hyperledger Fabric): the batch-cutting state machine, its chain-linking
state, the one-time genesis send in `Broadcast`, the stream-handler loop
`recvRequests`, and the bounded intake channel created by `newBroadcaster`.

Modelling conventions:
- byte slices are `List Nat`;
- the hashes computed by `BlockData.Hash()` and `BlockHeader.Hash()` are
  modelled as free constructors of an inductive `Hash` type (the embedding
  only needs that a hash is a function of the hashed fields);
- the external producer (`producer.Send`) is an oracle `ok : Nat → Bool`
  giving the outcome of the n-th `Send` call; the broadcaster state carries
  the call counter `sendCount` to index it;
- the recurring timer of `cutBlock` is abstracted to its two observable
  effects: the `timeout` event it delivers, and the `timerRearmed` flag of a
  step recording that the step reset the timer to a fresh full period
  (`timer.Stop`/drain followed by `timer.Reset`, or `timer.Reset` alone);
- `panic` inside the `cutBlock` goroutine is modelled by the absorbing
  `halted` flag: a halted cutter processes no further events;
- `proto.Marshal` never fails on the blocks built here, so the
  `logger.Fatalf` marshalling branch is unreachable and not modelled.
-/

namespace Fabric

/-- Opaque payload bytes (`[]byte` in Go). -/
abbrev Bytes := List Nat

/-- Abstract hash values. `Hash.nil` is the zero value of the `prevHash`
field (a nil Go slice); `Hash.ofData` models `BlockData.Hash()`;
`Hash.ofHeader` models `BlockHeader.Hash()` applied to the three header
fields. -/
inductive Hash where
  | nil : Hash
  | ofData : List Bytes → Hash
  | ofHeader : Nat → Hash → Hash → Hash
  deriving DecidableEq, Repr

/-- Block header: `ab.BlockHeader`. -/
structure BlockHeader where
  number : Nat
  previousHash : Hash
  dataHash : Hash
  deriving DecidableEq, Repr

/-- Block body: `ab.BlockData`. -/
structure BlockData where
  data : List Bytes
  deriving DecidableEq, Repr

/-- A block: `ab.Block`. -/
structure Block where
  header : BlockHeader
  data : BlockData
  deriving DecidableEq, Repr

/-- Model of `data.Hash()` on `ab.BlockData`. -/
def BlockData.hash (d : BlockData) : Hash := Hash.ofData d.data

/-- Model of `header.Hash()` on `ab.BlockHeader`. -/
def BlockHeader.hash (h : BlockHeader) : Hash :=
  Hash.ofHeader h.number h.previousHash h.dataHash

/-- The configuration fields `conf.General.BatchSize` and
`conf.General.BatchTimeout` consumed by the broadcaster. -/
structure Config where
  batchSize : Nat
  batchTimeout : Nat
  deriving DecidableEq, Repr

/-- The bounded channel `batchChan` (`make(chan *ab.BroadcastMessage, cap)`):
a FIFO buffer with a fixed capacity. -/
structure BatchChan where
  cap : Nat
  buf : List Bytes
  deriving DecidableEq, Repr

/-- Nonblocking enqueue on the bounded channel: succeeds exactly when the
buffer is below capacity; `none` is the case where a Go sender would block. -/
def BatchChan.trySend (c : BatchChan) (m : Bytes) : Option BatchChan :=
  if c.buf.length < c.cap then some { c with buf := c.buf ++ [m] } else none

/-- The mutable fields of `broadcasterImpl` owned by the cutter:
`messages`, `nextNumber`, `prevHash`, plus the producer call counter
indexing the send oracle. -/
structure BroadcasterState where
  messages : List Bytes
  nextNumber : Nat
  prevHash : Hash
  sendCount : Nat
  deriving DecidableEq, Repr

/-- The bootstrap payload `[]byte("genesis")` (ASCII). -/
def genesisBytes : Bytes := [103, 101, 110, 101, 115, 105, 115]

/-- The whole `broadcasterImpl`: channel, mutable state, and the
`sync.Once` guard (`started` records whether `once.Do` already ran). -/
structure Broadcaster where
  batchChan : BatchChan
  state : BroadcasterState
  started : Bool
  deriving DecidableEq, Repr

/-- Model of `newBroadcaster`: channel of capacity `conf.General.BatchSize`,
`messages` primed with the bootstrap payload, `nextNumber = 0`, `prevHash`
left at its zero value. -/
def newBroadcaster (conf : Config) : Broadcaster :=
  { batchChan := { cap := conf.batchSize, buf := [] }
    state := { messages := [genesisBytes], nextNumber := 0, prevHash := Hash.nil,
               sendCount := 0 }
    started := false }

/-- Model of `sendBlock`: build the block from the current state, then
(unconditionally, mirroring the mutation order in the source) clear
`messages`, increment `nextNumber` and set `prevHash` to the new header's
hash, and finally call `producer.Send`; the returned `Bool` is the send
outcome (`true` = no error), taken from the oracle at the current call
index. Returns (send outcome, block built, state after). -/
def sendBlock (ok : Nat → Bool) (s : BroadcasterState) : Bool × Block × BroadcasterState :=
  let data : BlockData := { data := s.messages }
  let block : Block :=
    { header := { number := s.nextNumber, previousHash := s.prevHash,
                  dataHash := data.hash }
      data := data }
  (ok s.sendCount, block,
   { messages := [], nextNumber := s.nextNumber + 1, prevHash := block.header.hash,
     sendCount := s.sendCount + 1 })

/-- Events serviced by the `select` loop of `cutBlock`: a message dequeued
from `batchChan`, or an expiry of the recurring timer. -/
inductive Event where
  | arrive : Bytes → Event
  | timeout : Event
  deriving DecidableEq, Repr

/-- State of the `cutBlock` goroutine: the broadcaster fields it owns, and
whether it has panicked (a send error) and thus processes nothing further. -/
structure CutterState where
  bs : BroadcasterState
  halted : Bool
  deriving DecidableEq, Repr

/-- Observable output of one `select` iteration: the blocks for which
`producer.Send` was invoked (zero or one), and whether the timer was reset
to a fresh full period. -/
structure StepOut where
  sent : List Block
  timerRearmed : Bool
  deriving DecidableEq, Repr

/-- The cut path shared by both `select` branches: call `sendBlock`; on a
send error the goroutine panics (`halted := true`). The timer was reset
just before the send in both branches, so `timerRearmed := true`. -/
def cutAndSend (ok : Nat → Bool) (bs : BroadcasterState) : CutterState × StepOut :=
  let r := sendBlock ok bs
  ({ bs := r.2.2, halted := !r.1 }, { sent := [r.2.1], timerRearmed := true })

/-- One iteration of the `for { select { ... } }` loop of `cutBlock`.
On `arrive`: append to `messages`; if `len(messages) >= maxSize`,
stop/drain and reset the timer and cut. On `timeout`: reset the timer,
then cut only if `messages` is non-empty. A halted cutter does nothing. -/
def cutterStep (maxSize : Nat) (ok : Nat → Bool) (c : CutterState) (e : Event) :
    CutterState × StepOut :=
  if c.halted then (c, { sent := [], timerRearmed := false })
  else
    match e with
    | Event.arrive m =>
        let bs1 := { c.bs with messages := c.bs.messages ++ [m] }
        if maxSize ≤ bs1.messages.length then cutAndSend ok bs1
        else ({ bs := bs1, halted := false }, { sent := [], timerRearmed := false })
    | Event.timeout =>
        if 0 < c.bs.messages.length then cutAndSend ok c.bs
        else (c, { sent := [], timerRearmed := true })

/-- Run the cutter over a sequence of events, collecting every block for
which a send was attempted, in order. -/
def cutterRun (maxSize : Nat) (ok : Nat → Bool) (c : CutterState) :
    List Event → CutterState × List Block
  | [] => (c, [])
  | e :: es =>
      let p := cutterStep maxSize ok c e
      let q := cutterRun maxSize ok p.1 es
      (q.1, p.2.sent ++ q.2)

/-- Model of the `once.Do` body in `Broadcast`: if the guard has not fired,
send the genesis block — discarding `sendBlock`'s error exactly as the
source does — and mark the cutter as started. `sync.Once` serializes
concurrent first callers, so repeated sequential invocation models any
number of concurrently starting stream handlers. -/
def broadcastInit (ok : Nat → Bool) (b : Broadcaster) : Broadcaster × List Block :=
  if b.started then (b, [])
  else
    let r := sendBlock ok b.state
    ({ b with state := r.2.2, started := true }, [r.2.1])

/-- The startup effect of `n` stream handlers entering `Broadcast`, each
invoking `once.Do`. -/
def broadcastInitN (ok : Nat → Bool) : Nat → Broadcaster → Broadcaster × List Block
  | 0, b => (b, [])
  | n + 1, b =>
      let p := broadcastInit ok b
      let q := broadcastInitN ok n p.1
      (q.1, p.2 ++ q.2)

/-- The cutter state handed to `go b.cutBlock(...)`: the broadcaster's
fields, not halted. -/
def startCutter (b : Broadcaster) : CutterState :=
  { bs := b.state, halted := false }

/-- Chain check: the blocks form a hash-linked, gaplessly numbered chain
whose first element has number `n0` and previous hash `h0`. -/
def blocksOk (n0 : Nat) (h0 : Hash) : List Block → Bool
  | [] => true
  | b :: rest =>
      (b.header.number == n0) && (b.header.previousHash == h0) &&
        blocksOk (n0 + 1) b.header.hash rest

/-- The status carried by `ab.BroadcastResponse`; the handler only ever
uses `SUCCESS`, but failure statuses exist in the protocol. -/
inductive Status where
  | SUCCESS : Status
  | BAD_REQUEST : Status
  | SERVICE_UNAVAILABLE : Status
  deriving DecidableEq, Repr

/-- One `stream.Recv()` outcome: a message, or a stream error (error code). -/
abbrev RecvResult := Except Nat Bytes

/-- Model of `recvRequests`: process `Recv` outcomes in order. On a receive
error, return it. On a message: enqueue it on `batchChan`, set the reply
status to `SUCCESS` and attempt `stream.Send(reply)` (outcome from the
oracle `sendOk`, indexed by reply count; `none` = success, `some e` =
failure with error `e`, which is returned). Results: replies attempted,
messages enqueued, and the error returned (`none` only for the model
artifact of an exhausted finite stream). -/
def recvRequests (sendOk : Nat → Option Nat) :
    Nat → List RecvResult → List Status × List Bytes × Option Nat
  | _, [] => ([], [], none)
  | _, Except.error e :: _ => ([], [], some e)
  | k, Except.ok m :: rest =>
      match sendOk k with
      | some e => ([Status.SUCCESS], [m], some e)
      | none =>
          let r := recvRequests sendOk (k + 1) rest
          (Status.SUCCESS :: r.1, m :: r.2.1, r.2.2)

/-- The batch contents at the moment a cut would happen while servicing
event `e` from state `c`: on arrival the just-appended message is included. -/
def accumulated (c : CutterState) : Event → List Bytes
  | Event.arrive m => c.bs.messages ++ [m]
  | Event.timeout => c.bs.messages

/-- A producer whose every send fails. -/
def neverOk : Nat → Bool := fun _ => false

/-- A producer whose every send succeeds. -/
def alwaysOk : Nat → Bool := fun _ => true

/-- A concrete cutter state used in witnesses: empty batch, fresh chain. -/
def cutterDemo : CutterState :=
  { bs := { messages := [], nextNumber := 0, prevHash := Hash.nil, sendCount := 0 },
    halted := false }

/-- A halted cutter services an event as a no-op. -/
theorem cutterStep_of_halted (maxSize : Nat) (ok : Nat → Bool) (c : CutterState) (e : Event)
    (h : c.halted = true) :
    cutterStep maxSize ok c e = (c, { sent := [], timerRearmed := false }) := by
  simp [cutterStep, h]

/-- A halted cutter produces nothing and never changes state, over any
sequence of events. -/
theorem cutterRun_of_halted (maxSize : Nat) (ok : Nat → Bool) (events : List Event) :
    ∀ c : CutterState, c.halted = true → cutterRun maxSize ok c events = (c, []) := by
  induction events with
  | nil => intro c _; rfl
  | cons e es ih =>
      intro c h
      simp [cutterRun, cutterStep_of_halted maxSize ok c e h, ih c h]

/-- Whenever a cutter step attempts a send, the resulting `halted` flag is
the negation of that send's outcome, taken at the state's call index. -/
theorem cutterStep_sent_halted (maxSize : Nat) (ok : Nat → Bool) (c : CutterState) (e : Event)
    (hsent : (cutterStep maxSize ok c e).2.sent ≠ []) :
    (cutterStep maxSize ok c e).1.halted = !(ok c.bs.sendCount) := by
  by_cases h : c.halted = true
  · rw [cutterStep_of_halted maxSize ok c e h] at hsent
    simp at hsent
  · have h' : c.halted = false := by
      cases hb : c.halted
      · rfl
      · exact absurd hb h
    cases e with
    | arrive m =>
        by_cases hc : maxSize ≤ c.bs.messages.length + 1
        · simp [cutterStep, h', hc, cutAndSend, sendBlock]
        · simp [cutterStep, h', hc] at hsent
    | timeout =>
        by_cases hm : 0 < c.bs.messages.length
        · simp [cutterStep, h', hm, cutAndSend, sendBlock]
        · simp [cutterStep, h', hm] at hsent

/-- C1 counterexample: from the freshly constructed broadcaster state, with
a producer whose send fails, `sendBlock` returns an error yet `nextNumber`
has advanced from 0 to 1 and the pending message list has been cleared
(it held the bootstrap payload). -/
theorem C1_counterexample :
    (sendBlock neverOk (newBroadcaster { batchSize := 3, batchTimeout := 1 }).state).1 = false ∧
    (sendBlock neverOk (newBroadcaster { batchSize := 3, batchTimeout := 1 }).state).2.2.nextNumber = 1 ∧
    (newBroadcaster { batchSize := 3, batchTimeout := 1 }).state.nextNumber = 0 ∧
    (sendBlock neverOk (newBroadcaster { batchSize := 3, batchTimeout := 1 }).state).2.2.messages = [] ∧
    (newBroadcaster { batchSize := 3, batchTimeout := 1 }).state.messages = [genesisBytes] := by
  decide

/-- C1 (amended): `sendBlock` advances the chain state before invoking
`producer.Send`, so in every invocation in which the send returns an error
the state has nevertheless already advanced: `nextNumber` is incremented by
one, the pending message list is cleared, and `prevHash` is set to the new
block's header hash. Progress is still stopped on failure, but by the
cutter's panic (see the C2 theorem), not by leaving the state unchanged. -/
theorem C1_state_advances_before_send (ok : Nat → Bool) (s : BroadcasterState)
    (_hfail : (sendBlock ok s).1 = false) :
    (sendBlock ok s).2.2.nextNumber = s.nextNumber + 1 ∧
    (sendBlock ok s).2.2.messages = [] ∧
    (sendBlock ok s).2.2.prevHash = (sendBlock ok s).2.1.header.hash :=
  ⟨rfl, rfl, rfl⟩

/-- Witness for the amended C1 at the fresh broadcaster state with a
failing producer. -/
theorem C1_state_advances_before_send_witness :
    (sendBlock neverOk (newBroadcaster { batchSize := 3, batchTimeout := 1 }).state).2.2.nextNumber =
      (newBroadcaster { batchSize := 3, batchTimeout := 1 }).state.nextNumber + 1 ∧
    (sendBlock neverOk (newBroadcaster { batchSize := 3, batchTimeout := 1 }).state).2.2.messages = [] ∧
    (sendBlock neverOk (newBroadcaster { batchSize := 3, batchTimeout := 1 }).state).2.2.prevHash =
      (sendBlock neverOk (newBroadcaster { batchSize := 3, batchTimeout := 1 }).state).2.1.header.hash :=
  C1_state_advances_before_send neverOk
    (newBroadcaster { batchSize := 3, batchTimeout := 1 }).state (by decide)

/-- C2: once a send performed by the cutter fails (the step attempts a send
and the oracle reports failure at the state's call index), the cutter is
halted: over every subsequent sequence of message arrivals and timer
expiries, no further block is produced, no further send is attempted, and
the cutter state never changes again. -/
theorem C2_fatal_halt (maxSize : Nat) (ok : Nat → Bool) (c : CutterState) (e : Event)
    (events : List Event)
    (hsent : (cutterStep maxSize ok c e).2.sent ≠ [])
    (hfail : ok c.bs.sendCount = false) :
    (cutterRun maxSize ok (cutterStep maxSize ok c e).1 events).2 = [] ∧
    (cutterRun maxSize ok (cutterStep maxSize ok c e).1 events).1 =
      (cutterStep maxSize ok c e).1 := by
  have hh : (cutterStep maxSize ok c e).1.halted = true := by
    rw [cutterStep_sent_halted maxSize ok c e hsent, hfail]
    rfl
  rw [cutterRun_of_halted maxSize ok events _ hh]
  exact ⟨rfl, rfl⟩

/-- Witness for C2: batch size 1, a failing producer, a first arrival that
cuts and fails, then a further arrival and a timeout that produce nothing. -/
theorem C2_fatal_halt_witness :
    (cutterRun 1 neverOk (cutterStep 1 neverOk cutterDemo (Event.arrive [7])).1
        [Event.arrive [8], Event.timeout]).2 = [] ∧
    (cutterRun 1 neverOk (cutterStep 1 neverOk cutterDemo (Event.arrive [7])).1
        [Event.arrive [8], Event.timeout]).1 =
      (cutterStep 1 neverOk cutterDemo (Event.arrive [7])).1 :=
  C2_fatal_halt 1 neverOk cutterDemo (Event.arrive [7]) [Event.arrive [8], Event.timeout]
    (by decide) (by decide)

/-- Every block a cutter run attempts to send extends a hash-linked,
gaplessly numbered chain beginning at the state's `nextNumber` and
`prevHash`, whatever the send outcomes. -/
theorem blocksOk_cutterRun (maxSize : Nat) (ok : Nat → Bool) :
    ∀ (events : List Event) (c : CutterState) (n : Nat) (h0 : Hash),
      c.bs.nextNumber = n → c.bs.prevHash = h0 →
      blocksOk n h0 (cutterRun maxSize ok c events).2 = true := by
  intro events
  induction events with
  | nil => intro c n h0 _ _; rfl
  | cons e es ih =>
      intro c n h0 hn hh
      subst hn hh
      simp only [cutterRun]
      by_cases h : c.halted = true
      · rw [cutterStep_of_halted maxSize ok c e h]
        simpa using ih c c.bs.nextNumber c.bs.prevHash rfl rfl
      · have h' : c.halted = false := by
          cases hb : c.halted
          · rfl
          · exact absurd hb h
        cases e with
        | arrive m =>
            by_cases hc : maxSize ≤ c.bs.messages.length + 1
            · simp [cutterStep, h', hc, cutAndSend, sendBlock, blocksOk]
              exact ih _ _ _ rfl rfl
            · simp [cutterStep, h', hc]
              exact ih _ _ _ rfl rfl
        | timeout =>
            by_cases hm : 0 < c.bs.messages.length
            · simp [cutterStep, h', hm, cutAndSend, sendBlock, blocksOk]
              exact ih _ _ _ rfl rfl
            · simp [cutterStep, h', hm]
              exact ih _ _ _ rfl rfl

/-- C3: starting from a fresh broadcaster, the genesis block followed by
every block the cutter sends forms a hash-linked chain: block 0 has an
empty previous hash, each later block's `previousHash` is the hash of its
predecessor's header, and block numbers increase by exactly 1 from 0. -/
theorem C3_chain_linked (conf : Config) (ok : Nat → Bool) (events : List Event) :
    blocksOk 0 Hash.nil
      ((broadcastInit ok (newBroadcaster conf)).2 ++
        (cutterRun conf.batchSize ok
          (startCutter (broadcastInit ok (newBroadcaster conf)).1) events).2) = true := by
  simp [broadcastInit, newBroadcaster, startCutter, sendBlock, blocksOk]
  exact blocksOk_cutterRun conf.batchSize ok events _ _ _ rfl rfl

/-- The cutter state right after the one-time startup of `Broadcast`:
genesis sent, batch empty, cutter goroutine fresh. -/
def cutterAfterInit (ok : Nat → Bool) (conf : Config) : CutterState :=
  startCutter (broadcastInit ok (newBroadcaster conf)).1

/-- C4: with batch size 3, after messages `A`, `B`, `C` arrive in that
order with no intervening timeout, the first two arrivals emit nothing and
do not touch the timer; the third immediately attempts exactly one send,
of a block whose payloads are `[A, B, C]` in arrival order, rearms the
timer for a fresh full period, and leaves the batch empty. -/
theorem C4_size_triggered_cut (ok : Nat → Bool) (A B C : Bytes) :
    (cutterStep 3 ok (cutterAfterInit ok { batchSize := 3, batchTimeout := 5 })
        (Event.arrive A)).2 = { sent := [], timerRearmed := false } ∧
    (cutterStep 3 ok
        (cutterStep 3 ok (cutterAfterInit ok { batchSize := 3, batchTimeout := 5 })
          (Event.arrive A)).1 (Event.arrive B)).2 =
      { sent := [], timerRearmed := false } ∧
    ((cutterStep 3 ok
        (cutterStep 3 ok
          (cutterStep 3 ok (cutterAfterInit ok { batchSize := 3, batchTimeout := 5 })
            (Event.arrive A)).1 (Event.arrive B)).1
        (Event.arrive C)).2.sent.map fun b => b.data.data) = [[A, B, C]] ∧
    (cutterStep 3 ok
        (cutterStep 3 ok
          (cutterStep 3 ok (cutterAfterInit ok { batchSize := 3, batchTimeout := 5 })
            (Event.arrive A)).1 (Event.arrive B)).1
        (Event.arrive C)).2.timerRearmed = true ∧
    (cutterStep 3 ok
        (cutterStep 3 ok
          (cutterStep 3 ok (cutterAfterInit ok { batchSize := 3, batchTimeout := 5 })
            (Event.arrive A)).1 (Event.arrive B)).1
        (Event.arrive C)).1.bs.messages = [] := by
  simp [cutterAfterInit, startCutter, broadcastInit, newBroadcaster, sendBlock, cutterStep,
    cutAndSend]

/-- C5: on a timer expiry serviced by a live cutter, the timer is rearmed
for a fresh full period unconditionally; a send is attempted if and only
if the pending batch is non-empty; and on an empty batch the step changes
nothing but the timer. -/
theorem C5_time_triggered_cut (maxSize : Nat) (ok : Nat → Bool) (c : CutterState)
    (h : c.halted = false) :
    (cutterStep maxSize ok c Event.timeout).2.timerRearmed = true ∧
    ((cutterStep maxSize ok c Event.timeout).2.sent ≠ [] ↔ c.bs.messages ≠ []) ∧
    (c.bs.messages = [] → (cutterStep maxSize ok c Event.timeout).1 = c) := by
  by_cases hm : 0 < c.bs.messages.length
  · have hne : c.bs.messages ≠ [] := List.length_pos.mp hm
    simp [cutterStep, h, hm, cutAndSend, sendBlock, hne]
  · have he : c.bs.messages = [] := by
      cases hmm : c.bs.messages
      · rfl
      · rw [hmm] at hm
        simp at hm
    simp [cutterStep, h, hm, he]

/-- Witness for C5 at a live cutter with one pending message. -/
theorem C5_time_triggered_cut_witness :
    (cutterStep 3 alwaysOk
        { bs := { messages := [[9]], nextNumber := 4, prevHash := Hash.nil, sendCount := 2 },
          halted := false } Event.timeout).2.timerRearmed = true ∧
    ((cutterStep 3 alwaysOk
        { bs := { messages := [[9]], nextNumber := 4, prevHash := Hash.nil, sendCount := 2 },
          halted := false } Event.timeout).2.sent ≠ [] ↔
      ({ bs := { messages := [[9]], nextNumber := 4, prevHash := Hash.nil, sendCount := 2 },
         halted := false } : CutterState).bs.messages ≠ []) ∧
    (({ bs := { messages := [[9]], nextNumber := 4, prevHash := Hash.nil, sendCount := 2 },
        halted := false } : CutterState).bs.messages = [] →
      (cutterStep 3 alwaysOk
        { bs := { messages := [[9]], nextNumber := 4, prevHash := Hash.nil, sendCount := 2 },
          halted := false } Event.timeout).1 =
        { bs := { messages := [[9]], nextNumber := 4, prevHash := Hash.nil, sendCount := 2 },
          halted := false }) :=
  C5_time_triggered_cut 3 alwaysOk
    { bs := { messages := [[9]], nextNumber := 4, prevHash := Hash.nil, sendCount := 2 },
      halted := false } (by decide)

/-- Once the `sync.Once` guard has fired, further entries into `Broadcast`
perform no startup work. -/
theorem broadcastInitN_started (ok : Nat → Bool) :
    ∀ (n : Nat) (b : Broadcaster), b.started = true → broadcastInitN ok n b = (b, []) := by
  intro n
  induction n with
  | zero => intro b _; rfl
  | succ k ih => intro b h; simp [broadcastInitN, broadcastInit, h, ih b h]

/-- In a well-linked block list starting at number `n0`, every block's
number is at least `n0`. -/
theorem blocksOk_number_ge :
    ∀ (bs : List Block) (n0 : Nat) (h0 : Hash), blocksOk n0 h0 bs = true →
      ∀ b ∈ bs, n0 ≤ b.header.number := by
  intro bs
  induction bs with
  | nil => intro n0 h0 _ b hb; simp at hb
  | cons x rest ih =>
      intro n0 h0 hok b hb
      simp only [blocksOk, Bool.and_eq_true, beq_iff_eq] at hok
      rcases List.mem_cons.mp hb with hb | hb
      · subst hb
        exact Nat.le_of_eq hok.1.1.symm
      · exact Nat.le_of_succ_le (ih (n0 + 1) x.header.hash hok.2 b hb)

/-- C6: for any positive number of stream handlers entering `Broadcast`,
the startup emits exactly one block — the genesis block, with number 0, an
empty previous hash and the single bootstrap payload — the guard is left
fired, the batch is left empty with `nextNumber = 1`, and every block a
subsequent cutter run sends has number at least 1, so the genesis block
precedes all client-sourced blocks. -/
theorem C6_genesis_once (conf : Config) (ok : Nat → Bool) (n : Nat) (hn : 1 ≤ n) :
    (broadcastInitN ok n (newBroadcaster conf)).2 =
      [{ header := { number := 0, previousHash := Hash.nil,
                     dataHash := BlockData.hash { data := [genesisBytes] } }
         data := { data := [genesisBytes] } }] ∧
    (broadcastInitN ok n (newBroadcaster conf)).1.started = true ∧
    (broadcastInitN ok n (newBroadcaster conf)).1.state.nextNumber = 1 ∧
    (broadcastInitN ok n (newBroadcaster conf)).1.state.messages = [] ∧
    ∀ (events : List Event) (b : Block),
      b ∈ (cutterRun conf.batchSize ok
            (startCutter (broadcastInitN ok n (newBroadcaster conf)).1) events).2 →
      1 ≤ b.header.number := by
  cases n with
  | zero => exact absurd hn (by decide)
  | succ m =>
      have key : broadcastInitN ok (m + 1) (newBroadcaster conf) =
          ({ batchChan := { cap := conf.batchSize, buf := [] },
             state := { messages := [], nextNumber := 1,
                        prevHash := BlockHeader.hash
                          { number := 0, previousHash := Hash.nil,
                            dataHash := BlockData.hash { data := [genesisBytes] } },
                        sendCount := 1 },
             started := true },
           [{ header := { number := 0, previousHash := Hash.nil,
                          dataHash := BlockData.hash { data := [genesisBytes] } }
              data := { data := [genesisBytes] } }]) := by
        simp [broadcastInitN, broadcastInit, newBroadcaster, sendBlock, broadcastInitN_started]
      rw [key]
      refine ⟨rfl, rfl, rfl, rfl, ?_⟩
      intro events b hb
      exact blocksOk_number_ge _ 1 _
        (blocksOk_cutterRun conf.batchSize ok events _ 1 _ rfl rfl) b hb

/-- Witness for C6 with two concurrently starting handlers. -/
theorem C6_genesis_once_witness :
    (broadcastInitN alwaysOk 2 (newBroadcaster { batchSize := 3, batchTimeout := 5 })).2 =
      [{ header := { number := 0, previousHash := Hash.nil,
                     dataHash := BlockData.hash { data := [genesisBytes] } }
         data := { data := [genesisBytes] } }] ∧
    (broadcastInitN alwaysOk 2 (newBroadcaster { batchSize := 3, batchTimeout := 5 })).1.started = true ∧
    (broadcastInitN alwaysOk 2 (newBroadcaster { batchSize := 3, batchTimeout := 5 })).1.state.nextNumber = 1 ∧
    (broadcastInitN alwaysOk 2 (newBroadcaster { batchSize := 3, batchTimeout := 5 })).1.state.messages = [] ∧
    ∀ (events : List Event) (b : Block),
      b ∈ (cutterRun 3 alwaysOk
            (startCutter
              (broadcastInitN alwaysOk 2 (newBroadcaster { batchSize := 3, batchTimeout := 5 })).1)
            events).2 →
      1 ≤ b.header.number :=
  C6_genesis_once { batchSize := 3, batchTimeout := 5 } alwaysOk 2 (by decide)

/-- C7: every step of a live cutter is atomic with respect to the batch:
either no send is attempted and the batch still holds exactly the messages
accumulated so far (in order), or exactly one send is attempted, of a
block whose payloads are exactly the accumulated messages, and the batch
is reset to empty. -/
theorem C7_cut_atomic (maxSize : Nat) (ok : Nat → Bool) (c : CutterState) (e : Event)
    (h : c.halted = false) :
    ((cutterStep maxSize ok c e).2.sent = [] ∧
      (cutterStep maxSize ok c e).1.bs.messages = accumulated c e) ∨
    (∃ b, (cutterStep maxSize ok c e).2.sent = [b] ∧
      b.data.data = accumulated c e ∧
      (cutterStep maxSize ok c e).1.bs.messages = []) := by
  cases e with
  | arrive m =>
      by_cases hc : maxSize ≤ c.bs.messages.length + 1
      · exact Or.inr
          ⟨{ header := { number := c.bs.nextNumber, previousHash := c.bs.prevHash,
                         dataHash := BlockData.hash { data := c.bs.messages ++ [m] } }
             data := { data := c.bs.messages ++ [m] } },
           by simp [cutterStep, h, hc, cutAndSend, sendBlock],
           by simp [accumulated],
           by simp [cutterStep, h, hc, cutAndSend, sendBlock]⟩
      · exact Or.inl
          ⟨by simp [cutterStep, h, hc], by simp [cutterStep, h, hc, accumulated]⟩
  | timeout =>
      by_cases hm : 0 < c.bs.messages.length
      · exact Or.inr
          ⟨{ header := { number := c.bs.nextNumber, previousHash := c.bs.prevHash,
                         dataHash := BlockData.hash { data := c.bs.messages } }
             data := { data := c.bs.messages } },
           by simp [cutterStep, h, hm, cutAndSend, sendBlock],
           by simp [accumulated],
           by simp [cutterStep, h, hm, cutAndSend, sendBlock]⟩
      · exact Or.inl
          ⟨by simp [cutterStep, h, hm], by simp [cutterStep, h, hm, accumulated]⟩

/-- Witness for C7: a size-1 cutter cutting on the arrival of one message. -/
theorem C7_cut_atomic_witness :
    ((cutterStep 1 alwaysOk cutterDemo (Event.arrive [5])).2.sent = [] ∧
      (cutterStep 1 alwaysOk cutterDemo (Event.arrive [5])).1.bs.messages =
        accumulated cutterDemo (Event.arrive [5])) ∨
    (∃ b, (cutterStep 1 alwaysOk cutterDemo (Event.arrive [5])).2.sent = [b] ∧
      b.data.data = accumulated cutterDemo (Event.arrive [5]) ∧
      (cutterStep 1 alwaysOk cutterDemo (Event.arrive [5])).1.bs.messages = []) :=
  C7_cut_atomic 1 alwaysOk cutterDemo (Event.arrive [5]) (by decide)

/-- For a reply channel that never fails, the handler loop acknowledges
each received message with `SUCCESS` and enqueues it, in order, until the
first receive error, which it returns; later stream activity is never
reached. The reply-send counter starting point is irrelevant. -/
theorem recvRequests_until_error (e : Nat) (rest : List RecvResult) :
    ∀ (msgs : List Bytes) (k : Nat),
      recvRequests (fun _ => none) k (msgs.map Except.ok ++ Except.error e :: rest) =
        (msgs.map fun _ => Status.SUCCESS, msgs, some e) := by
  intro msgs
  induction msgs with
  | nil => intro k; rfl
  | cons m ms ih => intro k; simp [recvRequests, ih (k + 1)]

/-- C8: for every stream delivering messages `msgs` and then a receive
error `e`, the handler sends exactly one reply per received message, each
with status `SUCCESS` (independent of any downstream send outcome, which
the handler never consults), enqueues exactly those messages in order, and
terminates returning `e`; nothing after the failing receive is processed. -/
theorem C8_ack_success_until_recv_error (msgs : List Bytes) (e : Nat) (rest : List RecvResult) :
    recvRequests (fun _ => none) 0 (msgs.map Except.ok ++ Except.error e :: rest) =
      (msgs.map fun _ => Status.SUCCESS, msgs, some e) :=
  recvRequests_until_error e rest msgs 0

/-- A producer whose first send fails and whose later sends succeed. -/
def failFirst : Nat → Bool := fun k => k != 0

/-- C9: the result of the genesis `sendBlock` inside the one-time startup
is discarded: with a producer whose first send fails, startup still marks
the guard fired and launches an unhalted cutter, and a later client
message still yields a block (number 1), so the send-failure halt policy
does not apply to the genesis send. -/
theorem C9_genesis_send_error_ignored :
    failFirst 0 = false ∧
    (broadcastInit failFirst
        (newBroadcaster { batchSize := 3, batchTimeout := 5 })).1.started = true ∧
    (startCutter (broadcastInit failFirst
        (newBroadcaster { batchSize := 3, batchTimeout := 5 })).1).halted = false ∧
    ((broadcastInit failFirst
        (newBroadcaster { batchSize := 3, batchTimeout := 5 })).2.map
        fun b => b.header.number) = [0] ∧
    ((cutterRun 3 failFirst
        (startCutter (broadcastInit failFirst
          (newBroadcaster { batchSize := 3, batchTimeout := 5 })).1)
        [Event.arrive [1], Event.timeout]).2.map
        fun b => (b.header.number, b.data.data)) = [(1, [[1]])] ∧
    (cutterRun 3 failFirst
        (startCutter (broadcastInit failFirst
          (newBroadcaster { batchSize := 3, batchTimeout := 5 })).1)
        [Event.arrive [1], Event.timeout]).1.halted = false := by
  decide

/-- C10: the constructor creates the intake channel with capacity exactly
`BatchSize` and an empty buffer, and an enqueue on that channel blocks
precisely when `BatchSize` messages are already buffered. -/
theorem C10_intake_capacity (conf : Config) (buf : List Bytes) (m : Bytes) :
    (newBroadcaster conf).batchChan.cap = conf.batchSize ∧
    (newBroadcaster conf).batchChan.buf = [] ∧
    (BatchChan.trySend { (newBroadcaster conf).batchChan with buf := buf } m = none ↔
      conf.batchSize ≤ buf.length) := by
  refine ⟨rfl, rfl, ?_⟩
  by_cases hlt : buf.length < conf.batchSize
  · simp only [newBroadcaster, BatchChan.trySend, hlt, if_true, reduceCtorEq, false_iff]
    omega
  · simp only [newBroadcaster, BatchChan.trySend, hlt, if_false, true_iff]
    omega

end Fabric
